import Mathlib

/- Shallow embedding of the PairRanker ranking engine
   (src/utils/rankingAlgorithm.ts) and of the MAKE_COMPARISON case of the
   application reducer (src/context/AppContext.tsx).  TypeScript strings are
   Lean String, JS numbers holding small integers are Lean Int, the JS null
   result of processComparison is Option.none. -/

/-- ListItem from src/types.ts: an item with an identifier and a text. -/
structure ListItem where
  id : String
  text : String
  deriving DecidableEq, Repr

/-- Mode tag of a ranking session, the TS union type full | partial.  The
second constructor is capitalised because its TS spelling is a Lean keyword. -/
inductive RankingMode where
  | full
  | Partial
  deriving DecidableEq, Repr

/-- RankingState from src/types.ts: the state record threaded through the
binary-insertion ranking engine. -/
structure RankingState where
  sortedListItemIds : List String
  pendingItemIds : List String
  currentCandidateId : String
  low : Int
  high : Int
  mode : RankingMode
  deriving DecidableEq, Repr

/-- Index clamping performed by JavaScript Array.prototype.splice on its start
argument: a negative start counts from the end of the array (clamped below at
0), a start beyond the length is clamped to the length. -/
def spliceIndex (len : Nat) (start : Int) : Nat :=
  if start < 0 then ((len : Int) + start).toNat else min start.toNat len

/-- Embedding of newSortedList.splice(start, 0, a) from the source: insert a
at the clamped index, shifting later elements right by one. -/
def spliceInsert (l : List String) (start : Int) (a : String) : List String :=
  l.take (spliceIndex l.length start) ++ [a] ++ l.drop (spliceIndex l.length start)

/-- JavaScript array read l[i]: out-of-range or negative indices yield
undefined, which this embedding models as the empty string. -/
def jsIndex (l : List String) (i : Int) : String :=
  if 0 ≤ i then l.getD i.toNat "" else ""

/-- initializeRankingState from src/utils/rankingAlgorithm.ts.  Note that the
source seeds pendingItemIds with itemIds.slice(1), which still contains the
element itemIds[1] that is simultaneously installed as currentCandidateId. -/
def initializeRankingState (items : List ListItem) : Option RankingState :=
  if items.length < 2 then
    none
  else
    let itemIds := items.map (fun item => item.id)
    some
      { sortedListItemIds := [itemIds.getD 0 ""]
        pendingItemIds := itemIds.drop 1
        currentCandidateId := itemIds.getD 1 ""
        low := 0
        high := 0
        mode := RankingMode.full }

/-- initializePartialRankingState from src/utils/rankingAlgorithm.ts. -/
def initializePartialRankingState (existingRankedIds : List String)
    (newItems : List ListItem) : Option RankingState :=
  if newItems.length = 0 then
    none
  else if existingRankedIds.length = 0 then
    initializeRankingState newItems
  else
    let newItemIds := newItems.map (fun item => item.id)
    some
      { sortedListItemIds := existingRankedIds
        pendingItemIds := newItemIds.drop 1
        currentCandidateId := newItemIds.getD 0 ""
        low := 0
        high := (existingRankedIds.length : Int) - 1
        mode := RankingMode.Partial }

/-- processComparison from src/utils/rankingAlgorithm.ts.  Math.floor of the
JS quotient (low + high) / 2 is integer floor division, Int.fdiv.  The source
returns null when the freshly computed pendingItemIds.slice(1) is empty, and
otherwise dequeues pendingItemIds[0] as the next candidate. -/
def processComparison (state : RankingState) (chooseCandidate : Bool) :
    Option RankingState :=
  let mid := Int.fdiv (state.low + state.high) 2
  let newLow := if chooseCandidate then state.low else mid + 1
  let newHigh := if chooseCandidate then mid - 1 else state.high
  if newLow > newHigh then
    let newSortedList := spliceInsert state.sortedListItemIds newLow state.currentCandidateId
    let newPendingItems := state.pendingItemIds.drop 1
    if newPendingItems.length = 0 then
      none
    else
      some
        { sortedListItemIds := newSortedList
          pendingItemIds := newPendingItems
          currentCandidateId := state.pendingItemIds.getD 0 ""
          low := 0
          high := (newSortedList.length : Int) - 1
          mode := state.mode }
  else
    some
      { sortedListItemIds := state.sortedListItemIds
        pendingItemIds := state.pendingItemIds
        currentCandidateId := state.currentCandidateId
        low := newLow
        high := newHigh
        mode := state.mode }

/-- Result record of getCurrentComparison. -/
structure ComparisonPair where
  candidateId : String
  referenceId : String
  deriving DecidableEq, Repr

/-- getCurrentComparison from src/utils/rankingAlgorithm.ts. -/
def getCurrentComparison (state : RankingState) : ComparisonPair :=
  let mid := Int.fdiv (state.low + state.high) 2
  { candidateId := state.currentCandidateId
    referenceId := jsIndex state.sortedListItemIds mid }

/-- ListStatus from src/types.ts. -/
inductive ListStatus where
  | unranked
  | ranking
  | ranked
  deriving DecidableEq, Repr

/-- RankedListData from src/types.ts. -/
structure RankedListData where
  itemIdsInOrder : List String
  deriving DecidableEq, Repr

/-- List from src/types.ts, named AppList because List is taken in Lean.
Optional TS fields become Option. -/
structure AppList where
  id : String
  name : String
  items : List ListItem
  status : ListStatus
  rankedData : Option RankedListData
  unrankedItems : Option (List ListItem)
  createdAt : Nat
  deriving DecidableEq, Repr

/-- Tab component of AppState from src/types.ts. -/
inductive AppTab where
  | current
  | myLists
  deriving DecidableEq, Repr

/-- View component of AppState from src/types.ts. -/
inductive AppView where
  | currentList
  | ranking
  | rankedResult
  deriving DecidableEq, Repr

/-- AppState from src/types.ts. -/
structure AppState where
  lists : List AppList
  currentListId : Option String
  rankingState : Option RankingState
  currentTab : AppTab
  currentView : AppView
  deriving DecidableEq, Repr

/-- MAKE_COMPARISON case of appReducer in src/context/AppContext.tsx.  When
processComparison signals completion with null, the reducer records the
sortedListItemIds of the state it still holds, which is the session as it
stood before this final comparison. -/
def makeComparison (state : AppState) (chooseCandidate : Bool) : AppState :=
  match state.rankingState with
  | none => state
  | some rs =>
    match processComparison rs chooseCandidate with
    | none =>
      let finalOrder := rs.sortedListItemIds
      { state with
        lists := state.lists.map (fun l =>
          if some l.id = state.currentListId then
            { l with
              status := ListStatus.ranked
              rankedData := some { itemIdsInOrder := finalOrder }
              unrankedItems := none }
          else l)
        rankingState := none
        currentView := AppView.rankedResult }
    | some newRankingState =>
      { state with rankingState := some newRankingState }

/-- Reachability between session states: zero or more processComparison steps,
each of which returned a still-active session. -/
inductive Reaches : RankingState → RankingState → Prop
  | refl (s : RankingState) : Reaches s s
  | step {s t u : RankingState} {b : Bool} :
      Reaches s t → processComparison t b = some u → Reaches s u

/-- Replay of a fixed sequence of comparison answers from a session state;
none once the engine has signalled completion. -/
def replay (s : RankingState) (answers : List Bool) : Option RankingState :=
  match answers with
  | [] => some s
  | b :: rest =>
    match processComparison s b with
    | none => none
    | some s2 => replay s2 rest

/-- Relational presentation of replaying answers from a session state. -/
inductive ReplaySteps : RankingState → List Bool → Option RankingState → Prop
  | done (s : RankingState) : ReplaySteps s [] (some s)
  | active {s s2 : RankingState} {b : Bool} {answers : List Bool}
      {r : Option RankingState} :
      processComparison s b = some s2 → ReplaySteps s2 answers r →
      ReplaySteps s (b :: answers) r
  | complete {s : RankingState} {b : Bool} {answers : List Bool} :
      processComparison s b = none → ReplaySteps s (b :: answers) none

/-- Relational presentation of a full-ranking run: initialise with the items,
then consume the answers one by one.  Used to state determinism. -/
inductive FullRun : List ListItem → List Bool → Option RankingState → Prop
  | init {items : List ListItem} {s : RankingState} {answers : List Bool}
      {r : Option RankingState} :
      initializeRankingState items = some s →
      ReplaySteps s answers r →
      FullRun items answers r

/-- Validity window invariant of an active session: the binary-search window
is inside the sorted list. -/
def InBounds (s : RankingState) : Prop :=
  0 ≤ s.low ∧ s.low ≤ s.high ∧ s.high ≤ (s.sortedListItemIds.length : Int) - 1

/-- Sample items used to evaluate the engine at concrete inputs. -/
def itemA : ListItem := { id := "a", text := "A" }

/-- Second sample item. -/
def itemB : ListItem := { id := "b", text := "B" }

/-- Third sample item. -/
def itemC : ListItem := { id := "c", text := "C" }

/-- Fourth sample item. -/
def itemX : ListItem := { id := "x", text := "X" }

/-- Fifth sample item. -/
def itemY : ListItem := { id := "y", text := "Y" }

/-- The session produced by full initialization on the two items a, b. -/
def sessionAB : RankingState :=
  { sortedListItemIds := ["a"]
    pendingItemIds := ["b"]
    currentCandidateId := "b"
    low := 0
    high := 0
    mode := RankingMode.full }

/-- The session produced by partial initialization on existing order a, b with
new items x, y. -/
def partialSession0 : RankingState :=
  { sortedListItemIds := ["a", "b"]
    pendingItemIds := ["y"]
    currentCandidateId := "x"
    low := 0
    high := 1
    mode := RankingMode.Partial }

/-- The session after answering the first comparison of partialSession0 with
false: the window narrows to the single index 1. -/
def partialSession1 : RankingState :=
  { sortedListItemIds := ["a", "b"]
    pendingItemIds := ["y"]
    currentCandidateId := "x"
    low := 1
    high := 1
    mode := RankingMode.Partial }

/-- Demonstration session with a four-element sorted list and the full
window, used to instantiate the narrowing theorems. -/
def narrowDemo : RankingState :=
  { sortedListItemIds := ["a", "b", "c", "d"]
    pendingItemIds := []
    currentCandidateId := "x"
    low := 0
    high := 3
    mode := RankingMode.full }

instance (s : RankingState) : Decidable (InBounds s) := by
  unfold InBounds
  exact inferInstance

/-- Demonstration list owning the two sample items. -/
def demoList : AppList :=
  { id := "L1"
    name := "demo"
    items := [itemA, itemB]
    status := ListStatus.ranking
    rankedData := none
    unrankedItems := none
    createdAt := 0 }

/-- Demonstration application state mid-ranking on the two-item session. -/
def demoAppState : AppState :=
  { lists := [demoList]
    currentListId := some "L1"
    rankingState := some sessionAB
    currentTab := AppTab.current
    currentView := AppView.ranking }

/-- The splice start index is never past the end of the list. -/
lemma spliceIndex_le (len : Nat) (start : Int) : spliceIndex len start ≤ len := by
  unfold spliceIndex
  split
  · omega
  · exact Nat.min_le_right _ _

/-- Inserting with splice grows the list by exactly one element. -/
lemma length_spliceInsert (l : List String) (start : Int) (a : String) :
    (spliceInsert l start a).length = l.length + 1 := by
  have h := spliceIndex_le l.length start
  simp [spliceInsert, List.length_take, List.length_drop]
  omega

/-- The inserted element is a member of the spliced list. -/
lemma self_mem_spliceInsert (l : List String) (start : Int) (a : String) :
    a ∈ spliceInsert l start a := by
  simp [spliceInsert]

/-- The original list is a sublist of the spliced list: splice insertion never
reorders the elements already present. -/
lemma sublist_spliceInsert (l : List String) (start : Int) (a : String) :
    l.Sublist (spliceInsert l start a) := by
  unfold spliceInsert
  rw [List.append_assoc]
  conv_lhs => rw [← List.take_append_drop (spliceIndex l.length start) l]
  exact (List.sublist_cons_self a (l.drop (spliceIndex l.length start))).append_left
    (l.take (spliceIndex l.length start))

/-- The floor midpoint of a nonempty integer window is at least its left end. -/
lemma le_fdiv_two {low high : Int} (h : low ≤ high) : low ≤ (low + high).fdiv 2 := by
  rw [Int.fdiv_eq_ediv _ (by decide), Int.le_ediv_iff_mul_le (by decide)]
  omega

/-- The floor midpoint of a nonempty integer window is at most its right end. -/
lemma fdiv_two_le {low high : Int} (h : low ≤ high) : (low + high).fdiv 2 ≤ high := by
  rw [Int.fdiv_eq_ediv _ (by decide)]
  have h2 : (low + high) / 2 ≤ high * 2 / 2 := Int.ediv_le_ediv (by decide) (by omega)
  rwa [Int.mul_ediv_cancel _ (by decide)] at h2

/-- C1.  Conservation fails already at full initialization: on the two items
a, b, the code seeds pendingItemIds with itemIds.slice(1), so the candidate b
is simultaneously the current candidate and a member of pending, the
identifier b occurs twice across ordered, pending and the candidate, and the
size bookkeeping gives ordered + pending + 1 = 3 for an input of 2 items. -/
theorem c1_conservation_fails_at_full_init :
    initializeRankingState [itemA, itemB] = some sessionAB ∧
    sessionAB.currentCandidateId ∈ sessionAB.pendingItemIds ∧
    (sessionAB.sortedListItemIds ++ sessionAB.pendingItemIds ++
      [sessionAB.currentCandidateId]).count "b" = 2 ∧
    sessionAB.sortedListItemIds.length + sessionAB.pendingItemIds.length + 1 = 3 := by
  decide

/-- C2.  The completion signal of processComparison is a bare null that
carries no ordering: driving the two-item session to completion returns none,
and the last session value the caller still holds has sortedListItemIds equal
to the singleton a, which does not contain the just-inserted candidate b. -/
theorem c2_terminal_signal_carries_nothing :
    initializeRankingState [itemA, itemB] = some sessionAB ∧
    processComparison sessionAB true = none ∧
    "b" ∉ sessionAB.sortedListItemIds := by
  decide

/-- C3.  Full initialization on a, b, c produces pendingItemIds equal to b, c
(itemIds.slice(1)), not the claimed items from index 2 onward, which would be
the singleton c. -/
theorem c3_full_init_pending_off_by_one :
    initializeRankingState [itemA, itemB, itemC] =
      some
        { sortedListItemIds := ["a"]
          pendingItemIds := ["b", "c"]
          currentCandidateId := "b"
          low := 0
          high := 0
          mode := RankingMode.full } ∧
    (initializeRankingState [itemA, itemB, itemC]).map
      (fun s => s.pendingItemIds) ≠ some ["c"] := by
  decide

/-- C4.  The insertion step signals completion whenever pendingItemIds.slice(1)
is empty, not when pendingItemIds is empty: from the partial session over
existing order a, b with new items x, y, one narrowing step followed by the
window-closing answer returns none even though pending still holds y, which is
silently dropped instead of being dequeued as the next candidate. -/
theorem c4_completion_check_drops_last_pending_item :
    initializePartialRankingState ["a", "b"] [itemX, itemY] = some partialSession0 ∧
    processComparison partialSession0 false = some partialSession1 ∧
    partialSession1.pendingItemIds = ["y"] ∧
    processComparison partialSession1 false = none := by
  decide

/-- C5.  Window narrowing: on an active session whose window is nonempty, the
step computes the floor midpoint of low and high, moves high to mid - 1 when
the candidate is preferred and low to mid + 1 otherwise, and, when the
narrowed window is still nonempty, returns a still-active session with the
same candidate, sorted list and pending queue and exactly the narrowed
bounds. -/
theorem c5_window_narrowing (s : RankingState) (b : Bool) (mid newLow newHigh : Int)
    (_hwin : s.low ≤ s.high)
    (hmid : mid = (s.low + s.high).fdiv 2)
    (hlo : newLow = if b then s.low else mid + 1)
    (hhi : newHigh = if b then mid - 1 else s.high)
    (hne : newLow ≤ newHigh) :
    processComparison s b =
      some { sortedListItemIds := s.sortedListItemIds
             pendingItemIds := s.pendingItemIds
             currentCandidateId := s.currentCandidateId
             low := newLow
             high := newHigh
             mode := s.mode } := by
  subst hmid
  subst hlo
  subst hhi
  unfold processComparison
  rw [if_neg (not_lt.mpr hne)]

/-- Witness for C5: narrowing the four-element window of narrowDemo by
preferring the candidate yields bounds 0 and 0. -/
theorem c5_window_narrowing_witness :
    processComparison narrowDemo true =
      some { sortedListItemIds := ["a", "b", "c", "d"]
             pendingItemIds := []
             currentCandidateId := "x"
             low := 0
             high := 0
             mode := RankingMode.full } :=
  c5_window_narrowing narrowDemo true 1 0 0 (by decide) (by decide) (by decide)
    (by decide) (by decide)

/-- Equation for the still-searching branch of processComparison: when the
narrowed window is still nonempty the step only replaces the bounds. -/
lemma processComparison_narrow_eq (s : RankingState) (b : Bool) (newLow newHigh : Int)
    (hlo : newLow = if b then s.low else (s.low + s.high).fdiv 2 + 1)
    (hhi : newHigh = if b then (s.low + s.high).fdiv 2 - 1 else s.high)
    (hne : newLow ≤ newHigh) :
    processComparison s b =
      some { sortedListItemIds := s.sortedListItemIds
             pendingItemIds := s.pendingItemIds
             currentCandidateId := s.currentCandidateId
             low := newLow
             high := newHigh
             mode := s.mode } := by
  subst hlo
  subst hhi
  unfold processComparison
  rw [if_neg (not_lt.mpr hne)]

/-- Equation for the insertion branch of processComparison: when the narrowed
window is empty the candidate is spliced in at the narrowed low bound, and the
result is none or the dequeued next session depending on the freshly dropped
pending queue. -/
lemma processComparison_insert_eq (s : RankingState) (b : Bool) (newLow newHigh : Int)
    (hlo : newLow = if b then s.low else (s.low + s.high).fdiv 2 + 1)
    (hhi : newHigh = if b then (s.low + s.high).fdiv 2 - 1 else s.high)
    (hdone : newHigh < newLow) :
    processComparison s b =
      (if (s.pendingItemIds.drop 1).length = 0 then none
       else
        some
          { sortedListItemIds := spliceInsert s.sortedListItemIds newLow s.currentCandidateId
            pendingItemIds := s.pendingItemIds.drop 1
            currentCandidateId := s.pendingItemIds.getD 0 ""
            low := 0
            high := ((spliceInsert s.sortedListItemIds newLow s.currentCandidateId).length : Int) - 1
            mode := s.mode }) := by
  subst hlo
  subst hhi
  unfold processComparison
  rw [if_pos hdone]

/-- Every still-active step keeps the previous sorted list as a sublist: the
step either leaves it unchanged or splices one element into it. -/
lemma processComparison_sorted_sublist {t u : RankingState} {b : Bool}
    (h : processComparison t b = some u) :
    t.sortedListItemIds.Sublist u.sortedListItemIds := by
  by_cases hdone :
      (if b then (t.low + t.high).fdiv 2 - 1 else t.high) <
        (if b then t.low else (t.low + t.high).fdiv 2 + 1)
  · rw [processComparison_insert_eq t b _ _ rfl rfl hdone] at h
    by_cases hpend : (t.pendingItemIds.drop 1).length = 0
    · rw [if_pos hpend] at h
      cases h
    · rw [if_neg hpend] at h
      cases h
      exact sublist_spliceInsert _ _ _
  · push_neg at hdone
    rw [processComparison_narrow_eq t b _ _ rfl rfl hdone] at h
    cases h
    exact List.Sublist.refl _

/-- A partial initialization with a nonempty existing order starts from
exactly that order. -/
lemma initializePartial_sorted {existing : List String} {newItems : List ListItem}
    {s0 : RankingState} (hne : existing ≠ [])
    (h : initializePartialRankingState existing newItems = some s0) :
    s0.sortedListItemIds = existing := by
  unfold initializePartialRankingState at h
  split at h
  · cases h
  · split at h
    · rename_i hlen
      exact absurd (List.length_eq_zero.mp hlen) hne
    · cases h
      rfl

/-- C6.  Partial-mode order preservation: from any partial initialization over
a nonempty existing order, every reachable still-active session keeps the
existing order as a sublist of its sorted list, so two existing elements never
swap their relative positions. -/
theorem c6_partial_preserves_existing_order
    (existing : List String) (newItems : List ListItem) (s0 s : RankingState)
    (hne : existing ≠ [])
    (hinit : initializePartialRankingState existing newItems = some s0)
    (hreach : Reaches s0 s) :
    existing.Sublist s.sortedListItemIds := by
  induction hreach with
  | refl =>
    rw [initializePartial_sorted hne hinit]
  | step hr hstep ih =>
    exact ih.trans (processComparison_sorted_sublist hstep)

/-- Witness for C6: the session reached after one comparison from the partial
initialization over the order a, b with the single new item c still carries
a, b in order. -/
theorem c6_partial_preserves_existing_order_witness :
    (["a", "b"] : List String).Sublist
      (RankingState.sortedListItemIds
        { sortedListItemIds := ["a", "b"]
          pendingItemIds := []
          currentCandidateId := "c"
          low := 1
          high := 1
          mode := RankingMode.Partial }) :=
  c6_partial_preserves_existing_order ["a", "b"] [itemC]
    { sortedListItemIds := ["a", "b"]
      pendingItemIds := []
      currentCandidateId := "c"
      low := 0
      high := 1
      mode := RankingMode.Partial }
    { sortedListItemIds := ["a", "b"]
      pendingItemIds := []
      currentCandidateId := "c"
      low := 1
      high := 1
      mode := RankingMode.Partial }
    (by decide) (by decide)
    (Reaches.step (b := false) (Reaches.refl _) (by decide))

/-- C7.  Monotonic narrowing: a step on an active candidate with a nonempty
window either returns a still-active session with the same candidate, sorted
list and pending queue whose window is nested inside the old one and strictly
smaller, or it ends the placement of the current candidate, either by
signalling completion or by returning a session whose sorted list now contains
that candidate. -/
theorem c7_monotonic_narrowing (s : RankingState) (b : Bool) (hwin : s.low ≤ s.high) :
    (∃ s2, processComparison s b = some s2 ∧
        s2.currentCandidateId = s.currentCandidateId ∧
        s2.sortedListItemIds = s.sortedListItemIds ∧
        s2.pendingItemIds = s.pendingItemIds ∧
        s.low ≤ s2.low ∧ s2.high ≤ s.high ∧
        s2.high - s2.low < s.high - s.low) ∨
    processComparison s b = none ∨
    (∃ s2, processComparison s b = some s2 ∧
        s.currentCandidateId ∈ s2.sortedListItemIds) := by
  have hm1 := le_fdiv_two hwin
  have hm2 := fdiv_two_le hwin
  by_cases hdone :
      (if b then (s.low + s.high).fdiv 2 - 1 else s.high) <
        (if b then s.low else (s.low + s.high).fdiv 2 + 1)
  · have heq := processComparison_insert_eq s b _ _ rfl rfl hdone
    by_cases hpend : (s.pendingItemIds.drop 1).length = 0
    · right
      left
      rw [heq, if_pos hpend]
    · right
      right
      refine ⟨_, by rw [heq, if_neg hpend], self_mem_spliceInsert _ _ _⟩
  · left
    push_neg at hdone
    refine ⟨_, processComparison_narrow_eq s b _ _ rfl rfl hdone, rfl, rfl, rfl, ?_, ?_, ?_⟩ <;>
      cases b <;> simp at hdone ⊢ <;> omega

/-- Witness for C7: instantiating monotonic narrowing on the four-element
window of narrowDemo with the reference preferred. -/
theorem c7_monotonic_narrowing_witness :
    (∃ s2, processComparison narrowDemo false = some s2 ∧
        s2.currentCandidateId = narrowDemo.currentCandidateId ∧
        s2.sortedListItemIds = narrowDemo.sortedListItemIds ∧
        s2.pendingItemIds = narrowDemo.pendingItemIds ∧
        narrowDemo.low ≤ s2.low ∧ s2.high ≤ narrowDemo.high ∧
        s2.high - s2.low < narrowDemo.high - narrowDemo.low) ∨
    processComparison narrowDemo false = none ∨
    (∃ s2, processComparison narrowDemo false = some s2 ∧
        narrowDemo.currentCandidateId ∈ s2.sortedListItemIds) :=
  c7_monotonic_narrowing narrowDemo false (by decide)

/-- Full initialization always yields an in-bounds window. -/
lemma initializeRankingState_inBounds {items : List ListItem} {s : RankingState}
    (h : initializeRankingState items = some s) : InBounds s := by
  unfold initializeRankingState at h
  split at h
  · cases h
  · cases h
    refine ⟨le_refl 0, le_refl 0, ?_⟩
    simp

/-- Partial initialization always yields an in-bounds window. -/
lemma initializePartialRankingState_inBounds {existing : List String}
    {newItems : List ListItem} {s : RankingState}
    (h : initializePartialRankingState existing newItems = some s) : InBounds s := by
  unfold initializePartialRankingState at h
  split at h
  · cases h
  · split at h
    · exact initializeRankingState_inBounds h
    · rename_i hlen
      cases h
      refine ⟨le_refl 0, ?_, le_refl _⟩
      have : existing.length ≠ 0 := hlen
      simp only []
      omega

/-- A still-active step preserves the in-bounds window invariant. -/
lemma processComparison_inBounds {s u : RankingState} {b : Bool}
    (hs : InBounds s) (h : processComparison s b = some u) : InBounds u := by
  obtain ⟨h0, h1, h2⟩ := hs
  have hm1 := le_fdiv_two h1
  have hm2 := fdiv_two_le h1
  by_cases hdone :
      (if b then (s.low + s.high).fdiv 2 - 1 else s.high) <
        (if b then s.low else (s.low + s.high).fdiv 2 + 1)
  · rw [processComparison_insert_eq s b _ _ rfl rfl hdone] at h
    by_cases hpend : (s.pendingItemIds.drop 1).length = 0
    · rw [if_pos hpend] at h
      cases h
    · rw [if_neg hpend] at h
      cases h
      refine ⟨le_refl 0, ?_, le_refl _⟩
      rw [length_spliceInsert]
      push_cast
      omega
  · push_neg at hdone
    rw [processComparison_narrow_eq s b _ _ rfl rfl hdone] at h
    cases h
    refine ⟨?_, ?_, ?_⟩ <;> cases b <;> simp at hdone ⊢ <;> omega

/-- Under the in-bounds invariant the midpoint is a valid index and the
reference item of getCurrentComparison is a real member of the sorted list. -/
lemma getCurrentComparison_mem {s : RankingState} (hs : InBounds s) :
    ((s.low + s.high).fdiv 2).toNat < s.sortedListItemIds.length ∧
    (getCurrentComparison s).referenceId ∈ s.sortedListItemIds := by
  obtain ⟨h0, h1, h2⟩ := hs
  have hm1 := le_fdiv_two h1
  have hm2 := fdiv_two_le h1
  have hmid0 : 0 ≤ (s.low + s.high).fdiv 2 := le_trans h0 hm1
  have hlt : ((s.low + s.high).fdiv 2).toNat < s.sortedListItemIds.length := by omega
  refine ⟨hlt, ?_⟩
  unfold getCurrentComparison jsIndex
  simp only [if_pos hmid0]
  rw [List.getD_eq_getElem?_getD, List.getElem?_eq_getElem hlt]
  exact List.getElem_mem _

/-- C9.  Bounds safety: both initializers and every still-active step
establish or preserve 0 <= low <= high <= length of the sorted list minus
one, and under that invariant the floor midpoint is a valid index, so the
reference item returned by getCurrentComparison is an element actually
present in the sorted list. -/
theorem c9_bounds_safety :
    (∀ (items : List ListItem) (s : RankingState),
        initializeRankingState items = some s → InBounds s) ∧
    (∀ (existing : List String) (newItems : List ListItem) (s : RankingState),
        initializePartialRankingState existing newItems = some s → InBounds s) ∧
    (∀ (s u : RankingState) (b : Bool),
        InBounds s → processComparison s b = some u → InBounds u) ∧
    (∀ s : RankingState, InBounds s →
        ((s.low + s.high).fdiv 2).toNat < s.sortedListItemIds.length ∧
        (getCurrentComparison s).referenceId ∈ s.sortedListItemIds) :=
  ⟨fun _ _ h => initializeRankingState_inBounds h,
   fun _ _ _ h => initializePartialRankingState_inBounds h,
   fun _ _ _ hs h => processComparison_inBounds hs h,
   fun _ hs => getCurrentComparison_mem hs⟩

/-- Witness for C9: the two-item full initialization is in bounds, and on the
four-element demonstration session the midpoint index is valid and the
reference item is a member of the sorted list. -/
theorem c9_bounds_safety_witness :
    InBounds sessionAB ∧
    ((narrowDemo.low + narrowDemo.high).fdiv 2).toNat <
      narrowDemo.sortedListItemIds.length ∧
    (getCurrentComparison narrowDemo).referenceId ∈ narrowDemo.sortedListItemIds :=
  ⟨c9_bounds_safety.1 [itemA, itemB] sessionAB (by decide),
   (c9_bounds_safety.2.2.2 narrowDemo (by decide)).1,
   (c9_bounds_safety.2.2.2 narrowDemo (by decide)).2⟩

/-- Replaying the same answers from the same session state can only produce
one result. -/
lemma replaySteps_unique {s : RankingState} {answers : List Bool}
    {r1 r2 : Option RankingState}
    (h1 : ReplaySteps s answers r1) (h2 : ReplaySteps s answers r2) : r1 = r2 := by
  induction h1 generalizing r2 with
  | done t =>
    cases h2
    rfl
  | active hstep hrest ih =>
    cases h2 with
    | active hstep2 hrest2 =>
      rw [hstep] at hstep2
      cases hstep2
      exact ih hrest2
    | complete hstep2 =>
      rw [hstep] at hstep2
      cases hstep2
  | complete hstep =>
    cases h2 with
    | active hstep2 hrest2 =>
      rw [hstep] at hstep2
      cases hstep2
    | complete hstep2 =>
      rfl

/-- C8.  Determinism: two full-ranking runs over the same items that consume
the same comparison answers in the same order produce the same result; the
engine is a pure function of its inputs. -/
theorem c8_determinism (items : List ListItem) (answers : List Bool)
    (r1 r2 : Option RankingState)
    (h1 : FullRun items answers r1) (h2 : FullRun items answers r2) : r1 = r2 := by
  cases h1 with
  | init hinit1 hsteps1 =>
    cases h2 with
    | init hinit2 hsteps2 =>
      rw [hinit1] at hinit2
      cases hinit2
      exact replaySteps_unique hsteps1 hsteps2

/-- Witness for C8: the two-item run answering a single comparison is a
FullRun, and replaying it twice gives equal results. -/
theorem c8_determinism_witness :
    FullRun [itemA, itemB] [true] none ∧ (none : Option RankingState) = none :=
  ⟨FullRun.init (s := sessionAB) (by decide) (ReplaySteps.complete (by decide)),
   c8_determinism [itemA, itemB] [true] none none
     (FullRun.init (s := sessionAB) (by decide) (ReplaySteps.complete (by decide)))
     (FullRun.init (s := sessionAB) (by decide) (ReplaySteps.complete (by decide)))⟩

/-- C10.  Reducer completion: when MAKE_COMPARISON runs on a state holding an
active session and processComparison returns the completion signal null, the
reducer records as the final ranking exactly the pre-comparison session
sortedListItemIds for the current list, marks it ranked, clears its
unrankedItems, clears rankingState and switches the view to rankedResult. -/
theorem c10_reducer_completion (st : AppState) (rs : RankingState) (b : Bool)
    (hrs : st.rankingState = some rs)
    (hdone : processComparison rs b = none) :
    (makeComparison st b).rankingState = none ∧
    (makeComparison st b).currentView = AppView.rankedResult ∧
    (makeComparison st b).lists = st.lists.map (fun l =>
      if some l.id = st.currentListId then
        { l with
          status := ListStatus.ranked
          rankedData := some { itemIdsInOrder := rs.sortedListItemIds }
          unrankedItems := none }
      else l) := by
  unfold makeComparison
  simp only [hrs, hdone]
  exact ⟨trivial, trivial, trivial⟩

/-- Witness for C10: dispatching the final comparison on the demonstration
state records the pre-comparison sorted list and resets the session. -/
theorem c10_reducer_completion_witness :
    (makeComparison demoAppState true).rankingState = none ∧
    (makeComparison demoAppState true).currentView = AppView.rankedResult ∧
    (makeComparison demoAppState true).lists = demoAppState.lists.map (fun l =>
      if some l.id = demoAppState.currentListId then
        { l with
          status := ListStatus.ranked
          rankedData := some { itemIdsInOrder := sessionAB.sortedListItemIds }
          unrankedItems := none }
      else l) :=
  c10_reducer_completion demoAppState sessionAB true (by decide) (by decide)

